import Mathlib

/-!
# Zeal `WebView` widget (`src/libs/ui/widgets/webview.cpp`)

A shallow embedding of the widget's own logic: the zoom index, the wheel handler,
the mouse press / release handlers and the context-menu builder.  The Qt objects the
widget talks to (the page, the hit test, the main window, the event) appear only
through the values the handlers read from them and through a log of the calls the
handlers make on them.
-/

namespace Zeal

/-! ## Machine integers -/

/-- Two's complement reduction of a mathematical integer to a 32-bit C++ `int`. -/
def wrap32 (v : Int) : Int := (v + 2147483648) % 4294967296 - 2147483648

/-- Qt `qMax` on `int`: `(a < b) ? b : a`. -/
def qMax (a b : Int) : Int := if a < b then b else a

/-- Qt `qMin` on `int`: `(a < b) ? a : b`. -/
def qMin (a b : Int) : Int := if a < b then a else b

/-- Qt `qAbs` on `int`: `t >= 0 ? t : -t`, the negation done in 32 bits. -/
def qAbs (t : Int) : Int := if t ≥ 0 then t else wrap32 (-t)

/-! ## Qt value types read by the handlers -/

/-- A `QUrl` as far as the widget inspects it: its scheme, the rest of its text and
whether the text parsed without error. -/
structure QUrl where
  scheme : String
  rest : String
  wellFormed : Bool
deriving DecidableEq

namespace QUrl

/-- The default-constructed `QUrl()`. -/
def null : QUrl := ⟨"", "", true⟩

/-- `QUrl::isEmpty`: the URL has no data. -/
def isEmpty (u : QUrl) : Bool := u.scheme == "" && u.rest == ""

/-- `QUrl::isValid`: non-empty and free of parse errors. -/
def isValid (u : QUrl) : Bool := !u.isEmpty && u.wellFormed

end QUrl

/-- A `QPoint`. -/
structure QPoint where
  x : Int
  y : Int
deriving DecidableEq

/-- The fields of a `QWebHitTestResult` the widget reads. -/
structure QWebHitTestResult where
  isContentEditable : Bool
  isContentSelected : Bool
  linkUrl : QUrl
  linkText : String
deriving DecidableEq

/-- `Qt::MouseButton` values the handlers distinguish; `other` stands for the rest. -/
inductive MouseButton where
  | NoButton | LeftButton | RightButton | MiddleButton | BackButton | ForwardButton | other
deriving DecidableEq

/-- `Qt::ShiftModifier`. -/
def ShiftModifier : Nat := 0x02000000

/-- `Qt::ControlModifier`. -/
def ControlModifier : Nat := 0x04000000

/-- The test `modifiers & flag` used as a C++ condition. -/
def testFlag (modifiers flag : Nat) : Bool := (modifiers &&& flag) != 0

/-- A `QMouseEvent`: button, keyboard modifiers, position. -/
structure QMouseEvent where
  button : MouseButton
  modifiers : Nat
  pos : QPoint
deriving DecidableEq

/-- A `QWheelEvent`: keyboard modifiers and angle delta. -/
structure QWheelEvent where
  modifiers : Nat
  angleDelta : QPoint
deriving DecidableEq

/-- A `QContextMenuEvent`: position in the widget and on the screen. -/
structure QContextMenuEvent where
  pos : QPoint
  globalPos : QPoint
deriving DecidableEq

/-! ## Menus -/

/-- An entry of the context menu, named after the action it carries. -/
inductive MenuEntry where
  | openLinkInNewTab
  | openLinkInDesktopBrowser (linkUrl : QUrl)
  | copyLinkToClipboard
  | copy
  | openPageInDesktopBrowser
  | separator
deriving DecidableEq

/-- `QAction::isSeparator` for an entry. -/
def MenuEntry.isSeparator : MenuEntry → Bool
  | .separator => true
  | _ => false

/-- A `QMenu` object: its entries in order, whether `deleteLater` was called on it and
where it was popped up, if it was. -/
structure QMenu where
  entries : List MenuEntry
  deleteLaterCalled : Bool
  poppedUpAt : Option QPoint
deriving DecidableEq

namespace QMenu

/-- The object made by `new QMenu(this)`. -/
def new : QMenu := ⟨[], false, none⟩

/-- `QMenu::addAction`. -/
def addAction (m : QMenu) (e : MenuEntry) : QMenu := { m with entries := m.entries ++ [e] }

/-- `QMenu::addSeparator`. -/
def addSeparator (m : QMenu) : QMenu := m.addAction .separator

/-- `QMenu::isEmpty`: no entry other than separators (all entries here are visible). -/
def isEmpty (m : QMenu) : Bool := m.entries.all MenuEntry.isSeparator

/-- `QMenu::popup`. -/
def popup (m : QMenu) (p : QPoint) : QMenu := { m with poppedUpAt := some p }

/-- `QObject::deleteLater`. -/
def deleteLater (m : QMenu) : QMenu := { m with deleteLaterCalled := true }

/-- The entries that carry an action, in order. -/
def actionEntries (m : QMenu) : List MenuEntry := m.entries.filter (fun e => !e.isSeparator)

end QMenu

/-! ## The widget -/

/-- Calls a handler makes on its collaborators, in the order made. -/
inductive Effect where
  /-- `setZoomFactor(percent / 100.0)`. -/
  | setZoomFactor (percent : Int)
  /-- `emit zoomLevelChanged()`. -/
  | zoomLevelChanged
  /-- `event->accept()`. -/
  | accept
  /-- `back()`. -/
  | back
  /-- `forward()`. -/
  | forward
  /-- `mainWindow->createTab()`. -/
  | createTab
  /-- `webView->load(url)` on the view of the tab just created. -/
  | loadInNewView (url : QUrl)
  /-- `QWebView::contextMenuEvent(event)`. -/
  | baseContextMenuEvent
  /-- `QWebView::mousePressEvent(event)`. -/
  | baseMousePressEvent
  /-- `QWebView::mouseReleaseEvent(event)`. -/
  | baseMouseReleaseEvent
  /-- `QWebView::wheelEvent(event)`. -/
  | baseWheelEvent
deriving DecidableEq

/-- The members of `WebView` and the objects it owns.  `m_contextMenu` is a pointer:
`none` is `nullptr`, `some k` points at the `k`-th menu of `menus`, the `QMenu`
children of the view in creation order.  `url` is the address of the shown page. -/
structure WebView where
  m_zoomLevel : Int
  m_clickedLink : QUrl
  m_contextMenu : Option Nat
  menus : List QMenu
  url : QUrl
deriving DecidableEq

/-- `WebView::availableZoomLevels`. -/
def availableZoomLevels : List Int :=
  [30, 40, 50, 67, 80, 90, 100, 110, 120, 133, 150, 170, 200, 220, 233, 250, 270, 285, 300]

/-- `QVector::indexOf`: position of the first occurrence, `-1` when absent. -/
def indexOf : List Int → Int → Int
  | [], _ => -1
  | a :: as, v =>
    if a = v then 0
    else
      let r := indexOf as v
      if r = -1 then -1 else r + 1

/-- `QVector::at` on an index that the caller keeps in range. -/
def vectorAt (xs : List Int) (i : Int) : Int := xs.getD i.toNat 0

/-- `WebView::defaultZoomLevel`. -/
def defaultZoomLevel : Int := indexOf availableZoomLevels 100

/-- `WebView::zoomLevel`. -/
def zoomLevel (s : WebView) : Int := s.m_zoomLevel

/-- `WebView::setZoomLevel`. -/
def setZoomLevel (s : WebView) (level : Int) : WebView × List Effect :=
  if level = s.m_zoomLevel then (s, [])
  else
    let level := qMax 0 level
    let level := qMin level ((availableZoomLevels.length : Int) - 1)
    ({ s with m_zoomLevel := level },
     [.setZoomFactor (vectorAt availableZoomLevels level), .zoomLevelChanged])

/-- `WebView::zoomIn`. -/
def zoomIn (s : WebView) : WebView × List Effect := setZoomLevel s (wrap32 (s.m_zoomLevel + 1))

/-- `WebView::zoomOut`. -/
def zoomOut (s : WebView) : WebView × List Effect := setZoomLevel s (wrap32 (s.m_zoomLevel - 1))

/-- `WebView::resetZoom`. -/
def resetZoom (s : WebView) : WebView × List Effect := setZoomLevel s defaultZoomLevel

/-- The `while (delta * direction >= 120)` loop of `wheelEvent`, returning the final
`levelDelta`.  Each unfolding of the loop body spends one unit of `fuel`; `none` means
the fuel ran out with the loop condition still true. -/
def wheelLoop : Nat → Int → Int → Int → Option Int
  | fuel, delta, direction, levelDelta =>
    if wrap32 (delta * direction) ≥ 120 then
      match fuel with
      | 0 => none
      | fuel + 1 =>
        wheelLoop fuel (wrap32 (delta - wrap32 (120 * direction))) direction
          (wrap32 (levelDelta + direction))
    else some levelDelta

/-- `WebView::wheelEvent`.  The loop is given `|delta|` units of fuel. -/
def wheelEvent (s : WebView) (event : QWheelEvent) : Option (WebView × List Effect) :=
  if testFlag event.modifiers ControlModifier then
    let angleDelta := event.angleDelta
    let delta := if qAbs angleDelta.x > qAbs angleDelta.y then angleDelta.x else angleDelta.y
    let direction : Int := if delta > 0 then 1 else -1
    match wheelLoop delta.natAbs delta direction 0 with
    | none => none
    | some levelDelta =>
      let r := setZoomLevel s (wrap32 (s.m_zoomLevel + levelDelta))
      some (r.1, r.2 ++ [.accept])
  else some (s, [.baseWheelEvent])

/-- The window `qApp->activeWindow()` returns, by the class `qobject_cast` sees. -/
inductive ActiveWindow where
  | MainWindow
  | otherWidget
deriving DecidableEq

/-- `WebView::createWindow`.  `activeWindow` is what `qApp->activeWindow()` returns
(`none` is a null pointer).  The cast gives a null `mainWindow` unless the active window
is a `MainWindow`; calling `createTab` through a null pointer has no defined result,
which is `none` here. -/
def createWindow (activeWindow : Option ActiveWindow) : Option (List Effect) :=
  match activeWindow with
  | some .MainWindow => some [.createTab]
  | _ => none

/-- The body of `case Qt::MiddleButton:` in `mousePressEvent`, also reached by falling
through from `case Qt::LeftButton:`. -/
def mousePressEvent_MiddleButton (hitTestContent : QPoint → QWebHitTestResult)
    (s : WebView) (event : QMouseEvent) : WebView × List Effect :=
  let s := { s with m_clickedLink := (hitTestContent event.pos).linkUrl }
  if !s.m_clickedLink.isValid then (s, [.baseMousePressEvent])
  else (s, [.accept])

/-- `WebView::mousePressEvent`. -/
def mousePressEvent (hitTestContent : QPoint → QWebHitTestResult)
    (s : WebView) (event : QMouseEvent) : WebView × List Effect :=
  match event.button with
  | .BackButton => (s, [.back, .accept])
  | .ForwardButton => (s, [.forward, .accept])
  | .LeftButton =>
    if !(testFlag event.modifiers ControlModifier || testFlag event.modifiers ShiftModifier) then
      (s, [.baseMousePressEvent])
    else mousePressEvent_MiddleButton hitTestContent s event
  | .MiddleButton => mousePressEvent_MiddleButton hitTestContent s event
  | _ => (s, [.baseMousePressEvent])

/-- The body of `case Qt::MiddleButton:` in `mouseReleaseEvent`, also reached by falling
through from `case Qt::LeftButton:`. -/
def mouseReleaseEvent_MiddleButton (activeWindow : Option ActiveWindow)
    (hitTestContent : QPoint → QWebHitTestResult)
    (s : WebView) (event : QMouseEvent) : Option (WebView × List Effect) :=
  if !s.m_clickedLink.isEmpty && s.m_clickedLink == (hitTestContent event.pos).linkUrl then
    match createWindow activeWindow with
    | none => none
    | some created => some (s, created ++ [.loadInNewView s.m_clickedLink, .accept])
  else some (s, [.baseMouseReleaseEvent])

/-- `WebView::mouseReleaseEvent`. -/
def mouseReleaseEvent (activeWindow : Option ActiveWindow)
    (hitTestContent : QPoint → QWebHitTestResult)
    (s : WebView) (event : QMouseEvent) : Option (WebView × List Effect) :=
  match event.button with
  | .LeftButton =>
    if !(testFlag event.modifiers ControlModifier || testFlag event.modifiers ShiftModifier) then
      some (s, [.baseMouseReleaseEvent])
    else mouseReleaseEvent_MiddleButton activeWindow hitTestContent s event
  | .MiddleButton => mouseReleaseEvent_MiddleButton activeWindow hitTestContent s event
  | _ => some (s, [.baseMouseReleaseEvent])

/-- The menu `contextMenuEvent` fills between `new QMenu(this)` and the final
`isEmpty` test, from the hit-test result and the address of the page. -/
def buildContextMenu (hitTestResult : QWebHitTestResult) (pageUrl : QUrl) : QMenu :=
  let menu := QMenu.new
  let linkUrl := hitTestResult.linkUrl
  let menu :=
    if linkUrl.isValid then
      let menu := menu.addAction .openLinkInNewTab
      if linkUrl.scheme != "qrc" then
        (menu.addAction (.openLinkInDesktopBrowser linkUrl)).addAction .copyLinkToClipboard
      else menu
    else menu
  let menu :=
    if hitTestResult.isContentSelected then
      let menu := if !menu.isEmpty then menu.addSeparator else menu
      menu.addAction .copy
    else menu
  let menu :=
    if !linkUrl.isValid && pageUrl.scheme != "qrc" then
      let menu := if !menu.isEmpty then menu.addSeparator else menu
      menu.addAction .openPageInDesktopBrowser
    else menu
  menu

/-- `WebView::contextMenuEvent`.  `QT_VERSION` is the version of Qt the file is compiled
against.  The menu made by `new QMenu(this)` is held in a local variable, declared with
the name of the member `m_contextMenu`; the member itself is read and never assigned. -/
def contextMenuEvent (QT_VERSION : Nat) (hitTestContent : QPoint → QWebHitTestResult)
    (s : WebView) (event : QContextMenuEvent) : WebView × List Effect :=
  if QT_VERSION ≥ 0x050600 then
    let hitTestResult := hitTestContent event.pos
    if hitTestResult.isContentEditable then (s, [.baseContextMenuEvent])
    else
      let menus :=
        match s.m_contextMenu with
        | some k => s.menus.modify QMenu.deleteLater k
        | none => s.menus
      let menu := buildContextMenu hitTestResult s.url
      if menu.isEmpty then ({ s with menus := menus ++ [menu] }, [.accept])
      else ({ s with menus := menus ++ [menu.popup event.globalPos] }, [.accept])
  else (s, [.baseContextMenuEvent])

/-! ## Sequences of zoom operations -/

/-- The operations that write the zoom index. -/
inductive ZoomOp where
  | zoomIn
  | zoomOut
  | resetZoom
  | setZoomLevel (level : Int)
  | wheel (event : QWheelEvent)
deriving DecidableEq

/-- One zoom operation on the view. -/
def ZoomOp.apply (s : WebView) : ZoomOp → Option (WebView × List Effect)
  | .zoomIn => some (Zeal.zoomIn s)
  | .zoomOut => some (Zeal.zoomOut s)
  | .resetZoom => some (Zeal.resetZoom s)
  | .setZoomLevel level => some (Zeal.setZoomLevel s level)
  | .wheel event => wheelEvent s event

/-- A sequence of zoom operations, left to right; the effects are concatenated. -/
def runZoomOps (s : WebView) : List ZoomOp → Option (WebView × List Effect)
  | [] => some (s, [])
  | op :: ops =>
    match op.apply s with
    | none => none
    | some (s1, e1) =>
      match runZoomOps s1 ops with
      | none => none
      | some (s2, e2) => some (s2, e1 ++ e2)

/-! ## The menu as the specification words it -/

/-- The action entries the specification lists for the context menu, in its order:
"Open Link in New Tab" when a valid link is under the cursor; "Open Link in External
Browser" and "Copy Link" when that link's scheme is not `qrc`; "Copy" when text is
selected; "Open Page in External Browser" when no valid link is under the cursor and
the page's scheme is not `qrc`. -/
def specMenuEntries (hitTestResult : QWebHitTestResult) (pageUrl : QUrl) : List MenuEntry :=
  (if hitTestResult.linkUrl.isValid = true then [MenuEntry.openLinkInNewTab] else []) ++
  (if hitTestResult.linkUrl.isValid = true ∧ hitTestResult.linkUrl.scheme ≠ "qrc" then
      [MenuEntry.openLinkInDesktopBrowser hitTestResult.linkUrl, MenuEntry.copyLinkToClipboard]
    else []) ++
  (if hitTestResult.isContentSelected = true then [MenuEntry.copy] else []) ++
  (if hitTestResult.linkUrl.isValid = false ∧ pageUrl.scheme ≠ "qrc" then
      [MenuEntry.openPageInDesktopBrowser]
    else [])

/-! ## Arithmetic of the model -/

/-- Whatever the integers, the loop ends within the fuel when the 32-bit value of
`delta` is below `120 * (fuel + 1)` (direction `1`). -/
theorem wheelLoop_up_isSome (fuel : Nat) : ∀ (delta levelDelta : Int),
    wrap32 delta < 120 * ((fuel : Int) + 1) →
    ∃ r, wheelLoop fuel delta 1 levelDelta = some r := by
  induction fuel with
  | zero =>
    intro delta levelDelta hf
    rw [wheelLoop]
    have hw : ¬ wrap32 (delta * 1) ≥ 120 := by
      rw [mul_one]; simp only [Nat.cast_zero, zero_add, mul_one] at hf; omega
    rw [if_neg hw]
    exact ⟨_, rfl⟩
  | succ n ih =>
    intro delta levelDelta hf
    rw [wheelLoop]
    by_cases hc : wrap32 (delta * 1) ≥ 120
    · rw [if_pos hc]
      apply ih
      rw [mul_one] at hc
      push_cast at hf
      unfold wrap32 at *
      omega
    · rw [if_neg hc]
      exact ⟨_, rfl⟩

/-- Whatever the integers, the loop ends within the fuel when the 32-bit value of
`-delta` is below `120 * (fuel + 1)` (direction `-1`). -/
theorem wheelLoop_down_isSome (fuel : Nat) : ∀ (delta levelDelta : Int),
    wrap32 (-delta) < 120 * ((fuel : Int) + 1) →
    ∃ r, wheelLoop fuel delta (-1) levelDelta = some r := by
  induction fuel with
  | zero =>
    intro delta levelDelta hf
    rw [wheelLoop]
    have hw : ¬ wrap32 (delta * -1) ≥ 120 := by
      rw [mul_neg_one]; simp only [Nat.cast_zero, zero_add, mul_one] at hf; omega
    rw [if_neg hw]
    exact ⟨_, rfl⟩
  | succ n ih =>
    intro delta levelDelta hf
    rw [wheelLoop]
    by_cases hc : wrap32 (delta * -1) ≥ 120
    · rw [if_pos hc]
      apply ih
      rw [mul_neg_one] at hc
      push_cast at hf
      unfold wrap32 at *
      omega
    · rw [if_neg hc]
      exact ⟨_, rfl⟩

/-- The loop of `wheelEvent` ends within the `|delta|` units of fuel it is given. -/
theorem wheelLoop_terminates (delta : Int) :
    ∃ r, wheelLoop delta.natAbs delta (if delta > 0 then 1 else -1) 0 = some r := by
  by_cases h : delta > 0
  · rw [if_pos h]
    apply wheelLoop_up_isSome
    unfold wrap32
    omega
  · rw [if_neg h]
    apply wheelLoop_down_isSome
    unfold wrap32
    omega

/-- The last index of the zoom-level sequence is 18. -/
theorem availableZoomLevels_length : (availableZoomLevels.length : Int) - 1 = 18 := by
  decide

/-- With the index in range before the call, `setZoomLevel` changes nothing but the
index, which becomes the requested level clamped to `[0, 18]`. -/
theorem setZoomLevel_state (s : WebView) (i : Int)
    (hz : 0 ≤ s.m_zoomLevel ∧ s.m_zoomLevel ≤ 18) :
    (setZoomLevel s i).1 = { s with m_zoomLevel := min (max i 0) 18 } := by
  unfold setZoomLevel
  by_cases h : i = s.m_zoomLevel
  · rw [if_pos h]
    have : min (max i 0) 18 = s.m_zoomLevel := by omega
    rw [this]
  · rw [if_neg h]
    simp only [availableZoomLevels_length, qMax, qMin]
    congr 1
    split_ifs <;> omega

/-- `setZoomLevel` keeps the index in `[0, 18]`. -/
theorem setZoomLevel_range (s : WebView) (i : Int)
    (hz : 0 ≤ s.m_zoomLevel ∧ s.m_zoomLevel ≤ 18) :
    0 ≤ (setZoomLevel s i).1.m_zoomLevel ∧ (setZoomLevel s i).1.m_zoomLevel ≤ 18 := by
  rw [setZoomLevel_state s i hz]
  simp only
  omega

/-- A wheel event with Ctrl held always returns: the loop has fuel enough, and the
result is that of `setZoomLevel` followed by `accept`. -/
theorem wheelEvent_ctrl_eq (s : WebView) (event : QWheelEvent)
    (hc : testFlag event.modifiers ControlModifier = true) :
    ∃ levelDelta : Int,
      wheelEvent s event =
        some ((setZoomLevel s (wrap32 (s.m_zoomLevel + levelDelta))).1,
              (setZoomLevel s (wrap32 (s.m_zoomLevel + levelDelta))).2 ++ [.accept]) := by
  unfold wheelEvent
  rw [if_pos hc]
  simp only
  obtain ⟨r, hr⟩ := wheelLoop_terminates
    (if qAbs event.angleDelta.x > qAbs event.angleDelta.y then event.angleDelta.x
      else event.angleDelta.y)
  rw [hr]
  exact ⟨r, rfl⟩

/-- Every zoom operation returns and keeps the index in `[0, 18]`. -/
theorem ZoomOp.apply_range (s : WebView) (op : ZoomOp)
    (hz : 0 ≤ s.m_zoomLevel ∧ s.m_zoomLevel ≤ 18) :
    ∃ r, op.apply s = some r ∧ 0 ≤ r.1.m_zoomLevel ∧ r.1.m_zoomLevel ≤ 18 := by
  cases op with
  | zoomIn => exact ⟨_, rfl, setZoomLevel_range s _ hz⟩
  | zoomOut => exact ⟨_, rfl, setZoomLevel_range s _ hz⟩
  | resetZoom => exact ⟨_, rfl, setZoomLevel_range s _ hz⟩
  | setZoomLevel level => exact ⟨_, rfl, setZoomLevel_range s _ hz⟩
  | wheel event =>
    by_cases hc : testFlag event.modifiers ControlModifier = true
    · obtain ⟨ld, hld⟩ := wheelEvent_ctrl_eq s event hc
      exact ⟨_, hld, setZoomLevel_range s _ hz⟩
    · refine ⟨(s, [.baseWheelEvent]), ?_, hz⟩
      show wheelEvent s event = some (s, [.baseWheelEvent])
      unfold wheelEvent
      rw [if_neg hc]

/-- Every sequence of zoom operations returns and keeps the index in `[0, 18]`. -/
theorem runZoomOps_range (ops : List ZoomOp) : ∀ (s : WebView),
    0 ≤ s.m_zoomLevel ∧ s.m_zoomLevel ≤ 18 →
    ∃ r, runZoomOps s ops = some r ∧ 0 ≤ r.1.m_zoomLevel ∧ r.1.m_zoomLevel ≤ 18 := by
  induction ops with
  | nil => intro s hz; exact ⟨(s, []), rfl, hz⟩
  | cons op ops ih =>
    intro s hz
    obtain ⟨r1, h1, hr1⟩ := ZoomOp.apply_range s op hz
    obtain ⟨r2, h2, hr2⟩ := ih r1.1 hr1
    refine ⟨(r2.1, r1.2 ++ r2.2), ?_, hr2⟩
    simp only [runZoomOps, h1, h2]

/-- C1: with the stored zoom index in `[0, N-1]` before the call (`N = 19`, the length
of the zoom-level sequence), the index stored after `setZoomLevel(i)` is
`min (max i 0) (N-1)`, for every integer `i`. -/
theorem setZoomLevel_stores_clamped_index (s : WebView) (i : Int)
    (hz : 0 ≤ s.m_zoomLevel ∧ s.m_zoomLevel ≤ (availableZoomLevels.length : Int) - 1) :
    availableZoomLevels =
        [30, 40, 50, 67, 80, 90, 100, 110, 120, 133, 150, 170, 200, 220, 233, 250, 270, 285, 300] ∧
      availableZoomLevels.length = 19 ∧
      (setZoomLevel s i).1.m_zoomLevel =
        min (max i 0) ((availableZoomLevels.length : Int) - 1) := by
  rw [availableZoomLevels_length] at hz ⊢
  refine ⟨rfl, rfl, ?_⟩
  rw [setZoomLevel_state s i hz]

theorem setZoomLevel_stores_clamped_index_witness :
    (0 ≤ (6 : Int) ∧ (6 : Int) ≤ (availableZoomLevels.length : Int) - 1) ∧
      (setZoomLevel ⟨6, QUrl.null, none, [], QUrl.null⟩ 25).1.m_zoomLevel =
        min (max 25 0) ((availableZoomLevels.length : Int) - 1) :=
  ⟨by decide,
    (setZoomLevel_stores_clamped_index ⟨6, QUrl.null, none, [], QUrl.null⟩ 25 (by decide)).2.2⟩

/-- C2: `zoomOut()` on a view whose index is already 0 leaves the index at 0 and still
emits `zoomLevelChanged`; so does `zoomIn()` on a view whose index is already 18.  The
notification is therefore not tied to a change of the stored index. -/
theorem zoom_saturated_still_notifies :
    zoomOut ⟨0, QUrl.null, none, [], QUrl.null⟩ =
        (⟨0, QUrl.null, none, [], QUrl.null⟩, [.setZoomFactor 30, .zoomLevelChanged]) ∧
      zoomIn ⟨18, QUrl.null, none, [], QUrl.null⟩ =
        (⟨18, QUrl.null, none, [], QUrl.null⟩, [.setZoomFactor 300, .zoomLevelChanged]) := by
  decide

/-- C7: on a view whose index is 5, `setZoomLevel(-1)` called twice in a row emits
`zoomLevelChanged` in each of the two calls, although the second call leaves the state
as the first one left it. -/
theorem setZoomLevel_twice_notifies_twice :
    (setZoomLevel ⟨5, QUrl.null, none, [], QUrl.null⟩ (-1)) =
        (⟨0, QUrl.null, none, [], QUrl.null⟩, [.setZoomFactor 30, .zoomLevelChanged]) ∧
      (setZoomLevel (setZoomLevel ⟨5, QUrl.null, none, [], QUrl.null⟩ (-1)).1 (-1)) =
        (⟨0, QUrl.null, none, [], QUrl.null⟩, [.setZoomFactor 30, .zoomLevelChanged]) ∧
      ((setZoomLevel ⟨5, QUrl.null, none, [], QUrl.null⟩ (-1)).2 ++
        (setZoomLevel (setZoomLevel ⟨5, QUrl.null, none, [], QUrl.null⟩ (-1)).1 (-1)).2).count
          .zoomLevelChanged = 2 := by
  decide

/-- C8: after `resetZoom()` the stored index is `defaultZoomLevel()`, whatever the state
before; `defaultZoomLevel()` is the position of 100 in the zoom-level sequence, which is
6, and the zoom value at the stored index is 100. -/
theorem resetZoom_index (s : WebView) :
    (resetZoom s).1.m_zoomLevel = defaultZoomLevel ∧
      defaultZoomLevel = indexOf availableZoomLevels 100 ∧
      defaultZoomLevel = 6 ∧
      vectorAt availableZoomLevels (resetZoom s).1.m_zoomLevel = 100 := by
  have hd : defaultZoomLevel = 6 := by decide
  have h : (resetZoom s).1.m_zoomLevel = 6 := by
    unfold resetZoom setZoomLevel
    rw [hd]
    by_cases h : 6 = s.m_zoomLevel
    · rw [if_pos h]; exact h.symm
    · rw [if_neg h]
      show qMin (qMax 0 6) ((availableZoomLevels.length : Int) - 1) = 6
      decide
  refine ⟨by rw [h, hd], rfl, hd, ?_⟩
  rw [h]
  decide

/-- C6: the predicate `0 ≤ index ≤ N-1` is kept by every zoom operation.  From a view
whose index is in range (the default index 6 is), any finite sequence of `zoomIn`,
`zoomOut`, `resetZoom`, `setZoomLevel(i)` with any integer `i` and wheel events with any
modifiers and any delta runs to completion and leaves the index in range; `zoomIn()` at `N-1` leaves
it at `N-1` and `zoomOut()` at 0 leaves it at 0. -/
theorem zoom_index_stays_in_range (s : WebView) (ops : List ZoomOp)
    (hz : 0 ≤ s.m_zoomLevel ∧ s.m_zoomLevel ≤ (availableZoomLevels.length : Int) - 1) :
    (∃ r, runZoomOps s ops = some r ∧
      0 ≤ r.1.m_zoomLevel ∧ r.1.m_zoomLevel ≤ (availableZoomLevels.length : Int) - 1) ∧
    (0 ≤ defaultZoomLevel ∧ defaultZoomLevel ≤ (availableZoomLevels.length : Int) - 1) ∧
    (s.m_zoomLevel = (availableZoomLevels.length : Int) - 1 →
      (zoomIn s).1.m_zoomLevel = (availableZoomLevels.length : Int) - 1) ∧
    (s.m_zoomLevel = 0 → (zoomOut s).1.m_zoomLevel = 0) := by
  rw [availableZoomLevels_length] at hz ⊢
  refine ⟨runZoomOps_range ops s hz, by decide, ?_, ?_⟩
  · intro h
    unfold zoomIn
    rw [setZoomLevel_state s _ hz, h]
    show min (max (wrap32 (18 + 1)) 0) 18 = 18
    decide
  · intro h
    unfold zoomOut
    rw [setZoomLevel_state s _ hz, h]
    show min (max (wrap32 (0 - 1)) 0) 18 = 0
    decide

theorem zoom_index_stays_in_range_witness :
    ∃ r,
      runZoomOps ⟨defaultZoomLevel, QUrl.null, none, [], QUrl.null⟩
        [.zoomOut, .wheel ⟨ControlModifier, ⟨0, -2400⟩⟩, .zoomOut, .setZoomLevel 40, .zoomIn,
          .resetZoom, .wheel ⟨ControlModifier, ⟨-2147483648, 5⟩⟩] = some r ∧
      0 ≤ r.1.m_zoomLevel ∧ r.1.m_zoomLevel ≤ (availableZoomLevels.length : Int) - 1 :=
  (zoom_index_stays_in_range ⟨defaultZoomLevel, QUrl.null, none, [], QUrl.null⟩
    [.zoomOut, .wheel ⟨ControlModifier, ⟨0, -2400⟩⟩, .zoomOut, .setZoomLevel 40, .zoomIn,
      .resetZoom, .wheel ⟨ControlModifier, ⟨-2147483648, 5⟩⟩] (by decide)).1

/-! ## Mouse press and release -/

/-- A press that reaches the middle-button case over a valid link stores the link and
accepts the event. -/
theorem mousePressEvent_MiddleButton_valid (hit : QPoint → QWebHitTestResult) (s : WebView)
    (event : QMouseEvent) (hv : (hit event.pos).linkUrl.isValid = true) :
    mousePressEvent_MiddleButton hit s event =
      ({ s with m_clickedLink := (hit event.pos).linkUrl }, [.accept]) := by
  unfold mousePressEvent_MiddleButton
  simp [hv]

/-- A middle-button event, or a left-button event with Ctrl or Shift held, reaches the
middle-button case of `mousePressEvent`. -/
theorem mousePressEvent_reaches_MiddleButton (hit : QPoint → QWebHitTestResult) (s : WebView)
    (event : QMouseEvent)
    (hb : event.button = .MiddleButton ∨
      (event.button = .LeftButton ∧
        (testFlag event.modifiers ControlModifier = true ∨
          testFlag event.modifiers ShiftModifier = true))) :
    mousePressEvent hit s event = mousePressEvent_MiddleButton hit s event := by
  unfold mousePressEvent
  rcases hb with hb | ⟨hb, hm⟩
  · rw [hb]
  · rw [hb]
    rcases hm with hm | hm <;> simp [hm]

/-- A middle-button event, or a left-button event with Ctrl or Shift held, reaches the
middle-button case of `mouseReleaseEvent`. -/
theorem mouseReleaseEvent_reaches_MiddleButton (activeWindow : Option ActiveWindow)
    (hit : QPoint → QWebHitTestResult) (s : WebView) (event : QMouseEvent)
    (hb : event.button = .MiddleButton ∨
      (event.button = .LeftButton ∧
        (testFlag event.modifiers ControlModifier = true ∨
          testFlag event.modifiers ShiftModifier = true))) :
    mouseReleaseEvent activeWindow hit s event =
      mouseReleaseEvent_MiddleButton activeWindow hit s event := by
  unfold mouseReleaseEvent
  rcases hb with hb | ⟨hb, hm⟩
  · rw [hb]
  · rw [hb]
    rcases hm with hm | hm <;> simp [hm]

/-- The middle-button case of `mouseReleaseEvent` with a `MainWindow` active: the view
is returned as it was, and a tab is opened exactly when the stored link is non-empty and
equal to the link under the release point. -/
theorem mouseReleaseEvent_MiddleButton_eq (hit : QPoint → QWebHitTestResult) (s : WebView)
    (event : QMouseEvent) :
    mouseReleaseEvent_MiddleButton (some .MainWindow) hit s event =
      some (s,
        if s.m_clickedLink.isEmpty = false ∧ s.m_clickedLink = (hit event.pos).linkUrl then
          [.createTab, .loadInNewView s.m_clickedLink, .accept]
        else [.baseMouseReleaseEvent]) := by
  unfold mouseReleaseEvent_MiddleButton createWindow
  by_cases h : s.m_clickedLink.isEmpty = false ∧ s.m_clickedLink = (hit event.pos).linkUrl
  · rw [if_pos h]
    obtain ⟨h1, h2⟩ := h
    simp [h1, ← h2]
  · rw [if_neg h]
    have : (!s.m_clickedLink.isEmpty && s.m_clickedLink == (hit event.pos).linkUrl) = false := by
      by_contra hc
      apply h
      simpa using hc
    simp [this]

/-- C4 as stated fails when no main window is active: after a middle-button press over
the valid link `L`, a middle-button release over `L` with `qApp->activeWindow()` null, or
not a `MainWindow`, reaches `createTab` through a null pointer: no view is created, no
link is loaded and the event is not accepted. -/
theorem link_click_without_main_window :
    mouseReleaseEvent none
        (fun _ => ⟨false, false, ⟨"https", "//zealdocs.org/", true⟩, "Zeal"⟩)
        (mousePressEvent (fun _ => ⟨false, false, ⟨"https", "//zealdocs.org/", true⟩, "Zeal"⟩)
          ⟨6, QUrl.null, none, [], QUrl.null⟩ ⟨.MiddleButton, 0, ⟨10, 20⟩⟩).1
        ⟨.MiddleButton, 0, ⟨10, 20⟩⟩ = none ∧
    mouseReleaseEvent (some .otherWidget)
        (fun _ => ⟨false, false, ⟨"https", "//zealdocs.org/", true⟩, "Zeal"⟩)
        (mousePressEvent (fun _ => ⟨false, false, ⟨"https", "//zealdocs.org/", true⟩, "Zeal"⟩)
          ⟨6, QUrl.null, none, [], QUrl.null⟩ ⟨.MiddleButton, 0, ⟨10, 20⟩⟩).1
        ⟨.MiddleButton, 0, ⟨10, 20⟩⟩ = none := by
  decide

/-- C4, amended: let `L` be a valid, non-empty link.  A middle-button press (or a
left-button press with Ctrl or Shift held) whose hit-test link is `L` stores `L` and
accepts the event.  A following middle-button release (or left-button release with Ctrl
or Shift held) whose hit-test link is `L`, sent while the active window is a main window,
creates exactly one tab, loads `L` into its view and accepts the event; one whose
hit-test link is not `L` creates nothing and calls the base handler, whatever the active
window. -/
theorem link_click_opens_new_view (hitPress hitRelease : QPoint → QWebHitTestResult)
    (s : WebView) (press release : QMouseEvent) (L : QUrl)
    (hvalid : L.isValid = true) (hnonempty : L.isEmpty = false)
    (hpress : press.button = .MiddleButton ∨
      (press.button = .LeftButton ∧
        (testFlag press.modifiers ControlModifier = true ∨
          testFlag press.modifiers ShiftModifier = true)))
    (hrelease : release.button = .MiddleButton ∨
      (release.button = .LeftButton ∧
        (testFlag release.modifiers ControlModifier = true ∨
          testFlag release.modifiers ShiftModifier = true)))
    (hlink : (hitPress press.pos).linkUrl = L) :
    mousePressEvent hitPress s press = ({ s with m_clickedLink := L }, [.accept]) ∧
    ((hitRelease release.pos).linkUrl = L →
      mouseReleaseEvent (some .MainWindow) hitRelease (mousePressEvent hitPress s press).1 release =
        some ({ s with m_clickedLink := L }, [.createTab, .loadInNewView L, .accept])) ∧
    ((hitRelease release.pos).linkUrl ≠ L →
      ∀ activeWindow : Option ActiveWindow,
        mouseReleaseEvent activeWindow hitRelease (mousePressEvent hitPress s press).1 release =
          some ({ s with m_clickedLink := L }, [.baseMouseReleaseEvent])) := by
  have hp : mousePressEvent hitPress s press = ({ s with m_clickedLink := L }, [.accept]) := by
    rw [mousePressEvent_reaches_MiddleButton hitPress s press hpress,
      mousePressEvent_MiddleButton_valid hitPress s press (by rw [hlink]; exact hvalid), hlink]
  refine ⟨hp, ?_, ?_⟩
  · intro hsame
    rw [hp, mouseReleaseEvent_reaches_MiddleButton _ hitRelease _ release hrelease,
      mouseReleaseEvent_MiddleButton_eq]
    simp [hnonempty, hsame]
  · intro hdiff activeWindow
    rw [hp, mouseReleaseEvent_reaches_MiddleButton _ hitRelease _ release hrelease]
    unfold mouseReleaseEvent_MiddleButton
    have : (L == (hitRelease release.pos).linkUrl) = false := by
      simpa using fun h => hdiff h.symm
    simp [this]

theorem link_click_opens_new_view_witness :
    mouseReleaseEvent (some .MainWindow)
        (fun _ => ⟨false, false, ⟨"https", "//zealdocs.org/", true⟩, "Zeal"⟩)
        (mousePressEvent (fun _ => ⟨false, false, ⟨"https", "//zealdocs.org/", true⟩, "Zeal"⟩)
          ⟨6, QUrl.null, none, [], QUrl.null⟩ ⟨.MiddleButton, 0, ⟨10, 20⟩⟩).1
        ⟨.LeftButton, ShiftModifier, ⟨10, 20⟩⟩ =
      some (⟨6, ⟨"https", "//zealdocs.org/", true⟩, none, [], QUrl.null⟩,
        [.createTab, .loadInNewView ⟨"https", "//zealdocs.org/", true⟩, .accept]) :=
  (link_click_opens_new_view
    (fun _ => ⟨false, false, ⟨"https", "//zealdocs.org/", true⟩, "Zeal"⟩)
    (fun _ => ⟨false, false, ⟨"https", "//zealdocs.org/", true⟩, "Zeal"⟩)
    ⟨6, QUrl.null, none, [], QUrl.null⟩ ⟨.MiddleButton, 0, ⟨10, 20⟩⟩
    ⟨.LeftButton, ShiftModifier, ⟨10, 20⟩⟩ ⟨"https", "//zealdocs.org/", true⟩
    (by decide) (by decide) (Or.inl rfl) (Or.inr ⟨rfl, Or.inr (by decide)⟩) rfl).2.1 rfl

/-- C9 as stated fails: on a view whose stored link is `L`, a middle-button release over
`L` opens a tab and leaves the stored link `L`, not empty; the same release sent once
more, with no press in between, opens a second tab. -/
theorem release_does_not_clear_clicked_link :
    ∃ r,
      mouseReleaseEvent (some .MainWindow)
          (fun _ => ⟨false, false, ⟨"https", "//zealdocs.org/", true⟩, "Zeal"⟩)
          ⟨6, ⟨"https", "//zealdocs.org/", true⟩, none, [], QUrl.null⟩
          ⟨.MiddleButton, 0, ⟨10, 20⟩⟩ = some r ∧
      r.2 = [.createTab, .loadInNewView ⟨"https", "//zealdocs.org/", true⟩, .accept] ∧
      r.1.m_clickedLink = ⟨"https", "//zealdocs.org/", true⟩ ∧
      r.1.m_clickedLink.isEmpty = false ∧
      mouseReleaseEvent (some .MainWindow)
          (fun _ => ⟨false, false, ⟨"https", "//zealdocs.org/", true⟩, "Zeal"⟩)
          r.1 ⟨.MiddleButton, 0, ⟨10, 20⟩⟩ =
        some (r.1, [.createTab, .loadInNewView ⟨"https", "//zealdocs.org/", true⟩, .accept]) :=
  ⟨(⟨6, ⟨"https", "//zealdocs.org/", true⟩, none, [], QUrl.null⟩,
      [.createTab, .loadInNewView ⟨"https", "//zealdocs.org/", true⟩, .accept]),
    by decide, rfl, rfl, by decide, by decide⟩

/-- Whatever the button, the modifiers and the active window, a release that returns
returns the view as it was. -/
theorem mouseReleaseEvent_state (activeWindow : Option ActiveWindow)
    (hit : QPoint → QWebHitTestResult) (s : WebView) (event : QMouseEvent)
    (r : WebView × List Effect)
    (h : mouseReleaseEvent activeWindow hit s event = some r) : r.1 = s := by
  have hm : ∀ r : WebView × List Effect,
      mouseReleaseEvent_MiddleButton activeWindow hit s event = some r → r.1 = s := by
    intro r hr
    unfold mouseReleaseEvent_MiddleButton at hr
    split_ifs at hr
    · cases hc : createWindow activeWindow with
      | none => rw [hc] at hr; cases hr
      | some created => rw [hc] at hr; cases hr; rfl
    · cases hr; rfl
  unfold mouseReleaseEvent at h
  split at h
  · split_ifs at h
    · cases h; rfl
    · exact hm r h
  · exact hm r h
  · cases h; rfl

/-- With a `MainWindow` active every release returns the view as it was; a tab is opened
exactly by a middle-button release, or a left-button release with Ctrl or Shift held,
over the stored link when that link is not empty. -/
theorem mouseReleaseEvent_eq (hit : QPoint → QWebHitTestResult) (s : WebView)
    (event : QMouseEvent) :
    mouseReleaseEvent (some .MainWindow) hit s event =
      some (s,
        if (event.button = .MiddleButton ∨
            (event.button = .LeftButton ∧
              (testFlag event.modifiers ControlModifier = true ∨
                testFlag event.modifiers ShiftModifier = true))) ∧
            s.m_clickedLink.isEmpty = false ∧ s.m_clickedLink = (hit event.pos).linkUrl then
          [.createTab, .loadInNewView s.m_clickedLink, .accept]
        else [.baseMouseReleaseEvent]) := by
  by_cases hq : event.button = .MiddleButton ∨
      (event.button = .LeftButton ∧
        (testFlag event.modifiers ControlModifier = true ∨
          testFlag event.modifiers ShiftModifier = true))
  · rw [mouseReleaseEvent_reaches_MiddleButton _ hit s event hq,
      mouseReleaseEvent_MiddleButton_eq]
    simp only [hq, true_and]
  · rw [if_neg (fun h => hq h.1)]
    unfold mouseReleaseEvent
    split
    · rename_i hb
      have hm : ¬ (testFlag event.modifiers ControlModifier = true ∨
          testFlag event.modifiers ShiftModifier = true) := fun h => hq (Or.inr ⟨hb, h⟩)
      have hm2 : (testFlag event.modifiers ControlModifier ||
          testFlag event.modifiers ShiftModifier) = false := by
        simpa using hm
      simp [hm2]
    · rename_i hb
      exact absurd (Or.inl hb) hq
    · rfl

/-- A press that is neither a middle-button press nor a left-button press with Ctrl or
Shift held returns the view as it was. -/
theorem mousePressEvent_state_of_not_capturing (hit : QPoint → QWebHitTestResult)
    (s : WebView) (event : QMouseEvent)
    (hq : ¬ (event.button = .MiddleButton ∨
      (event.button = .LeftButton ∧
        (testFlag event.modifiers ControlModifier = true ∨
          testFlag event.modifiers ShiftModifier = true)))) :
    (mousePressEvent hit s event).1 = s := by
  unfold mousePressEvent
  split
  · rfl
  · rfl
  · rename_i hb
    have hm : ¬ (testFlag event.modifiers ControlModifier = true ∨
        testFlag event.modifiers ShiftModifier = true) := fun h => hq (Or.inr ⟨hb, h⟩)
    have hm2 : (testFlag event.modifiers ControlModifier ||
        testFlag event.modifiers ShiftModifier) = false := by
      simpa using hm
    simp [hm2]
  · rename_i hb
    exact absurd (Or.inl hb) hq
  · rfl

/-- `setZoomLevel` leaves the stored link alone. -/
theorem setZoomLevel_clickedLink (s : WebView) (level : Int) :
    (setZoomLevel s level).1.m_clickedLink = s.m_clickedLink := by
  unfold setZoomLevel
  split_ifs <;> rfl

/-- Every wheel event returns and leaves the stored link alone. -/
theorem wheelEvent_clickedLink (s : WebView) (event : QWheelEvent) :
    ∃ r, wheelEvent s event = some r ∧ r.1.m_clickedLink = s.m_clickedLink := by
  by_cases hc : testFlag event.modifiers ControlModifier = true
  · obtain ⟨levelDelta, h⟩ := wheelEvent_ctrl_eq s event hc
    exact ⟨_, h, setZoomLevel_clickedLink s _⟩
  · refine ⟨(s, [.baseWheelEvent]), ?_, rfl⟩
    unfold wheelEvent
    rw [if_neg hc]

/-- `contextMenuEvent` leaves the stored link alone. -/
theorem contextMenuEvent_clickedLink (QT_VERSION : Nat) (hit : QPoint → QWebHitTestResult)
    (s : WebView) (event : QContextMenuEvent) :
    (contextMenuEvent QT_VERSION hit s event).1.m_clickedLink = s.m_clickedLink := by
  unfold contextMenuEvent
  simp only
  split_ifs <;> rfl

/-- C9, amended: `mouseReleaseEvent` never writes the stored link: for every button, every
modifiers and every active window, a release that returns returns the view as it was.
With a main window active every release returns; it opens a tab exactly when it is a
middle-button release or a left-button release with Ctrl or Shift held and the stored
link is non-empty and equal to the link under the release point, and the same release
sent again with no press in between does the same again.  The stored link is replaced
only by a middle-button or Ctrl/Shift left-button press, with the link under that press:
every other press, `setZoomLevel` (hence `zoomIn`, `zoomOut`, `resetZoom`), every wheel
event and every context-menu event leave it as it was. -/
theorem release_keeps_clicked_link (activeWindow : Option ActiveWindow)
    (hit : QPoint → QWebHitTestResult) (s : WebView) (release press : QMouseEvent)
    (level : Int) (wheel : QWheelEvent) (QT_VERSION : Nat) (menuEvent : QContextMenuEvent) :
    (∀ r, mouseReleaseEvent activeWindow hit s release = some r → r.1 = s) ∧
    (∃ effects,
      mouseReleaseEvent (some .MainWindow) hit s release = some (s, effects) ∧
      (Effect.createTab ∈ effects ↔
        ((release.button = .MiddleButton ∨
            (release.button = .LeftButton ∧
              (testFlag release.modifiers ControlModifier = true ∨
                testFlag release.modifiers ShiftModifier = true))) ∧
          s.m_clickedLink.isEmpty = false ∧ s.m_clickedLink = (hit release.pos).linkUrl)) ∧
      ∀ r, mouseReleaseEvent (some .MainWindow) hit s release = some r →
        mouseReleaseEvent (some .MainWindow) hit r.1 release = some r) ∧
    ((press.button = .MiddleButton ∨
        (press.button = .LeftButton ∧
          (testFlag press.modifiers ControlModifier = true ∨
            testFlag press.modifiers ShiftModifier = true))) →
      (mousePressEvent hit s press).1 = { s with m_clickedLink := (hit press.pos).linkUrl }) ∧
    (¬ (press.button = .MiddleButton ∨
        (press.button = .LeftButton ∧
          (testFlag press.modifiers ControlModifier = true ∨
            testFlag press.modifiers ShiftModifier = true))) →
      (mousePressEvent hit s press).1 = s) ∧
    (setZoomLevel s level).1.m_clickedLink = s.m_clickedLink ∧
    (∃ r, wheelEvent s wheel = some r ∧ r.1.m_clickedLink = s.m_clickedLink) ∧
    (contextMenuEvent QT_VERSION hit s menuEvent).1.m_clickedLink = s.m_clickedLink := by
  refine ⟨fun r hr => mouseReleaseEvent_state activeWindow hit s release r hr, ?_, ?_,
    mousePressEvent_state_of_not_capturing hit s press, setZoomLevel_clickedLink s level,
    wheelEvent_clickedLink s wheel, contextMenuEvent_clickedLink QT_VERSION hit s menuEvent⟩
  · have h := mouseReleaseEvent_eq hit s release
    refine ⟨_, h, ?_, ?_⟩
    · split_ifs with hc
      · simp only [List.mem_cons, true_or, true_iff]
        exact hc
      · simp only [List.mem_singleton, reduceCtorEq, false_iff]
        exact hc
    · intro r hr
      rw [h] at hr
      rw [← Option.some.inj hr]
      exact h
  · intro hpress
    rw [mousePressEvent_reaches_MiddleButton hit s press hpress]
    unfold mousePressEvent_MiddleButton
    simp only
    split_ifs <;> rfl

theorem release_keeps_clicked_link_witness :
    (∃ effects,
      mouseReleaseEvent (some .MainWindow)
          (fun _ => ⟨false, false, ⟨"https", "//zealdocs.org/", true⟩, "Zeal"⟩)
          ⟨6, ⟨"https", "//zealdocs.org/", true⟩, none, [], QUrl.null⟩
          ⟨.LeftButton, ControlModifier, ⟨10, 20⟩⟩ =
        some (⟨6, ⟨"https", "//zealdocs.org/", true⟩, none, [], QUrl.null⟩, effects) ∧
      Effect.createTab ∈ effects) ∧
    (mousePressEvent (fun _ => ⟨false, false, ⟨"https", "//zealdocs.org/", true⟩, "Zeal"⟩)
        ⟨6, ⟨"https", "//zealdocs.org/", true⟩, none, [], QUrl.null⟩
        ⟨.LeftButton, 0, ⟨10, 20⟩⟩).1 =
      ⟨6, ⟨"https", "//zealdocs.org/", true⟩, none, [], QUrl.null⟩ := by
  have h :=
    release_keeps_clicked_link (some .MainWindow)
      (fun _ => ⟨false, false, ⟨"https", "//zealdocs.org/", true⟩, "Zeal"⟩)
      ⟨6, ⟨"https", "//zealdocs.org/", true⟩, none, [], QUrl.null⟩
      ⟨.LeftButton, ControlModifier, ⟨10, 20⟩⟩ ⟨.LeftButton, 0, ⟨10, 20⟩⟩
      0 ⟨0, ⟨0, 0⟩⟩ 0x050600 ⟨⟨10, 20⟩, ⟨110, 220⟩⟩
  obtain ⟨effects, h1, h2, _⟩ := h.2.1
  exact ⟨⟨effects, h1, h2.2 ⟨Or.inr ⟨rfl, Or.inl (by decide)⟩, by decide, rfl⟩⟩,
    h.2.2.2.1 (by decide)⟩

/-! ## Context menu -/

/-- The action entries of the menu `contextMenuEvent` fills are those the specification
lists, in its order. -/
theorem buildContextMenu_actionEntries (hitTestResult : QWebHitTestResult) (pageUrl : QUrl) :
    (buildContextMenu hitTestResult pageUrl).actionEntries =
      specMenuEntries hitTestResult pageUrl := by
  unfold buildContextMenu specMenuEntries
  rcases hv : hitTestResult.linkUrl.isValid <;>
  rcases hs : hitTestResult.isContentSelected <;>
  by_cases hl : hitTestResult.linkUrl.scheme = "qrc" <;>
  by_cases hp : pageUrl.scheme = "qrc" <;>
  simp [hv, hs, hl, hp, QMenu.new, QMenu.addAction, QMenu.addSeparator, QMenu.isEmpty,
    QMenu.actionEntries, MenuEntry.isSeparator]

/-- A menu is empty in the sense of `QMenu::isEmpty` exactly when it has no action entry. -/
theorem QMenu.isEmpty_iff (m : QMenu) : m.isEmpty = true ↔ m.actionEntries = [] := by
  unfold QMenu.isEmpty QMenu.actionEntries
  simp [List.filter_eq_nil_iff]

/-- The menu `contextMenuEvent` fills is not popped up while it is being filled. -/
theorem buildContextMenu_poppedUpAt (hitTestResult : QWebHitTestResult) (pageUrl : QUrl) :
    (buildContextMenu hitTestResult pageUrl).poppedUpAt = none := by
  unfold buildContextMenu
  simp only [QMenu.addSeparator, QMenu.addAction, QMenu.new]
  split_ifs <;> rfl

/-- C5 as stated fails when the file is compiled against a Qt older than 5.6: over
selected, non-editable text with no link on a `qrc` page the claim has a menu built with
the single entry "Copy" and popped up, while the handler builds no menu and calls the
default handler. -/
theorem contextMenuEvent_old_qt_builds_no_menu :
    contextMenuEvent 0x050500 (fun _ => ⟨false, true, QUrl.null, ""⟩)
        ⟨6, QUrl.null, none, [], ⟨"qrc", "///browser/welcome.html", true⟩⟩
        ⟨⟨10, 20⟩, ⟨110, 220⟩⟩ =
      (⟨6, QUrl.null, none, [], ⟨"qrc", "///browser/welcome.html", true⟩⟩,
        [.baseContextMenuEvent]) ∧
    specMenuEntries ⟨false, true, QUrl.null, ""⟩ ⟨"qrc", "///browser/welcome.html", true⟩ =
      [.copy] := by
  decide

/-- C5, amended: compiled against Qt 5.6 or later (`QT_VERSION >= 0x050600`), for a
context-menu event whose hit-test result is not content-editable the handler accepts the
event and builds one new menu whose action entries, separators left out, are in order:
"open link in new tab" iff a valid link is under the cursor; "open link in desktop
browser" then "copy link" iff that link's scheme is not `qrc`; "copy" iff text is
selected; "open page in desktop browser" iff no valid link is under the cursor and the
page's scheme is not `qrc`.  The menu is popped up at the event's global position iff it
has at least one such entry.  When the hit-test result is content-editable no menu is
built and the default handler is called.  Compiled against an older Qt, every
context-menu event goes to the default handler and no menu is built. -/
theorem contextMenuEvent_menu (QT_VERSION : Nat) (hit : QPoint → QWebHitTestResult)
    (s : WebView) (event : QContextMenuEvent) :
    (QT_VERSION ≥ 0x050600 →
      ((hit event.pos).isContentEditable = false →
        ∃ menu kept,
          contextMenuEvent QT_VERSION hit s event =
            ({ s with menus := kept ++ [menu] }, [.accept]) ∧
          kept.length = s.menus.length ∧
          menu.actionEntries = specMenuEntries (hit event.pos) s.url ∧
          (menu.poppedUpAt = some event.globalPos ↔
            specMenuEntries (hit event.pos) s.url ≠ []) ∧
          (menu.poppedUpAt = none ↔ specMenuEntries (hit event.pos) s.url = [])) ∧
      ((hit event.pos).isContentEditable = true →
        contextMenuEvent QT_VERSION hit s event = (s, [.baseContextMenuEvent]))) ∧
    (QT_VERSION < 0x050600 →
      contextMenuEvent QT_VERSION hit s event = (s, [.baseContextMenuEvent])) := by
  refine ⟨fun hqt => ⟨?_, ?_⟩, ?_⟩
  · intro hed
    have hspec := buildContextMenu_actionEntries (hit event.pos) s.url
    have hkept : (match s.m_contextMenu with
        | some k => s.menus.modify QMenu.deleteLater k
        | none => s.menus).length = s.menus.length := by
      cases s.m_contextMenu <;> simp
    unfold contextMenuEvent
    rw [if_pos hqt]
    simp only [hed, Bool.false_eq_true, if_false]
    by_cases hem : (buildContextMenu (hit event.pos) s.url).isEmpty = true
    · rw [if_pos hem]
      have hnil := (QMenu.isEmpty_iff _).1 hem
      rw [hspec] at hnil
      refine ⟨_, _, rfl, hkept, hspec, ?_, ?_⟩
      · rw [hnil, buildContextMenu_poppedUpAt]
        simp
      · rw [hnil, buildContextMenu_poppedUpAt]
        simp
    · rw [if_neg hem]
      have hne : specMenuEntries (hit event.pos) s.url ≠ [] := by
        rw [← hspec]
        exact fun h => hem ((QMenu.isEmpty_iff _).2 h)
      refine ⟨_, _, rfl, hkept, ?_, ?_, ?_⟩
      · rw [← hspec]; rfl
      · simp [QMenu.popup, hne]
      · simp [QMenu.popup, hne]
  · intro hed
    unfold contextMenuEvent
    rw [if_pos hqt]
    simp [hed]
  · intro hqt
    unfold contextMenuEvent
    rw [if_neg (by omega)]

theorem contextMenuEvent_menu_witness :
    ∃ menu kept,
      contextMenuEvent 0x050600 (fun _ => ⟨false, true, QUrl.null, ""⟩)
          ⟨6, QUrl.null, none, [], ⟨"qrc", "///browser/welcome.html", true⟩⟩
          ⟨⟨10, 20⟩, ⟨110, 220⟩⟩ =
        (⟨6, QUrl.null, none, kept ++ [menu], ⟨"qrc", "///browser/welcome.html", true⟩⟩,
          [.accept]) ∧
      menu.actionEntries = [.copy] ∧
      menu.poppedUpAt = some ⟨110, 220⟩ := by
  obtain ⟨menu, kept, h1, -, h3, h4, -⟩ :=
    (contextMenuEvent_menu 0x050600 (fun _ => ⟨false, true, QUrl.null, ""⟩)
      ⟨6, QUrl.null, none, [], ⟨"qrc", "///browser/welcome.html", true⟩⟩
      ⟨⟨10, 20⟩, ⟨110, 220⟩⟩).1 (by decide) |>.1 rfl
  exact ⟨menu, kept, h1, h3.trans (by decide), h4.2 (by decide)⟩

/-- C10: compiled against Qt 5.6, two context-menu events in a row over selected,
non-editable text, on a view whose `m_contextMenu` member is null, leave the view owning
two menus, neither with `deleteLater` called on it, and the member still null: the menu
of the first event is not scheduled for destruction when the second is built. -/
theorem contextMenuEvent_twice_keeps_both_menus :
    (contextMenuEvent 0x050600 (fun _ => ⟨false, true, QUrl.null, ""⟩)
      (contextMenuEvent 0x050600 (fun _ => ⟨false, true, QUrl.null, ""⟩)
        ⟨6, QUrl.null, none, [], ⟨"qrc", "///browser/welcome.html", true⟩⟩
        ⟨⟨10, 20⟩, ⟨110, 220⟩⟩).1
      ⟨⟨10, 20⟩, ⟨110, 220⟩⟩).1 =
    ⟨6, QUrl.null, none,
      [⟨[.copy], false, some ⟨110, 220⟩⟩, ⟨[.copy], false, some ⟨110, 220⟩⟩],
      ⟨"qrc", "///browser/welcome.html", true⟩⟩ := by
  decide

end Zeal
